import Mathlib

/-!
Shallow embedding of `src/app.py`: a spreadsheet-to-SQLite loader.
The embedding covers the column type inference (`infer_data_type`),
the column-name cleaning in `upload`, the table creation in `create_db`,
and the row coercion / bulk insert loop in `insert_data`.

Machine floats of the source are modelled as rationals (`Rat`); missing
cells (pandas `NaN`) are a distinct constructor, as `pd.isna` treats them.
-/

/-- Scalar cell value of the spreadsheet as pandas presents it: a missing
cell (NaN), a numeric cell, or a text cell. -/
inductive Cell where
  | missing
  | num (q : Rat)
  | str (s : String)
deriving DecidableEq

/-- Value of a decimal digit character, `none` on a non-digit. -/
def digitVal (c : Char) : Option Nat :=
  if '0' ≤ c ∧ c ≤ '9' then some (c.toNat - '0'.toNat) else none

/-- Reads a run of decimal digits left to right, `none` if any character is
not a digit. -/
def parseDigitsAux : Nat → List Char → Option Nat
  | acc, [] => some acc
  | acc, c :: cs =>
    match digitVal c with
    | some d => parseDigitsAux (acc * 10 + d) cs
    | none => none

/-- Embeds parsing of an unsigned decimal literal (`123`, `1.5`, `.5`, `5.`),
the common ground of Python `float` and `pd.to_numeric` on such strings. -/
def parseUnsigned (cs : List Char) : Option Rat :=
  let intPart := cs.takeWhile (fun c => c != '.')
  let rest := cs.dropWhile (fun c => c != '.')
  match rest with
  | [] =>
    match parseDigitsAux 0 intPart with
    | some n => if intPart.isEmpty then none else some (n : Rat)
    | none => none
  | _ :: fracPart =>
    match parseDigitsAux 0 intPart, parseDigitsAux 0 fracPart with
    | some n, some f =>
      if intPart.isEmpty && fracPart.isEmpty then none
      else some (Rat.divInt (Int.ofNat (n * 10 ^ fracPart.length + f)) (Int.ofNat (10 ^ fracPart.length)))
    | _, _ => none

/-- Embeds numeric parsing of a string with an optional sign. -/
def parseNum (s : String) : Option Rat :=
  match s.data with
  | '-' :: cs => (fun q => -q) <$> parseUnsigned cs
  | '+' :: cs => parseUnsigned cs
  | cs => parseUnsigned cs

/-- Embeds `pd.isna` on one cell. -/
def isna : Cell → Bool
  | Cell.missing => true
  | _ => false

/-- Embeds the scalar conversion shared by `pd.to_numeric(..., errors='coerce')`
(app.py line 18) and `float(value)` (lines 130 and 132): a numeric cell passes
through, a text cell is parsed, a missing cell has no numeric value. -/
def toNumeric : Cell → Option Rat
  | Cell.missing => none
  | Cell.num q => some q
  | Cell.str s => parseNum s

/-- Embeds Python `str(value)` (app.py line 134) on a non-missing cell. -/
def cellStr : Cell → String
  | Cell.missing => "nan"
  | Cell.num q => toString q
  | Cell.str s => s

/-- Truncation toward zero, as numpy `astype(int)` (app.py line 20) and
Python `int(float(...))` (line 130) truncate. -/
def ratTrunc (q : Rat) : Int := q.num.tdiv (q.den : Int)

/-- Tests whether a parsed number equals its own truncation to integer,
embedding the comparison `series_numeric == series_numeric.astype(int)`
of app.py line 20. -/
def isIntegral (q : Rat) : Bool := ((ratTrunc q : Rat) == q)

/-- Embeds `infer_data_type` (app.py lines 17-24): drop missing values,
coerce the rest to numbers (failures become NaN, i.e. `none`); if the result
is non-empty and fully numeric, return INTEGER when every value is integral
and REAL otherwise; in every other case return TEXT. -/
def infer_data_type (series : List Cell) : String :=
  let series_numeric := (series.filter (fun c => !(isna c))).map toNumeric
  if !series_numeric.isEmpty && series_numeric.all Option.isSome then
    if series_numeric.all (fun o => match o with | some q => isIntegral q | none => true) then
      "INTEGER"
    else
      "REAL"
  else
    "TEXT"

/-- SQL value bound as an insert parameter: NULL, an integer, a real, or a
text string. -/
inductive SqlVal where
  | null
  | int (n : Int)
  | real (q : Rat)
  | text (s : String)
deriving DecidableEq

/-- Embeds the per-cell coercion of app.py lines 126-136: a missing cell
becomes NULL for every target type; for target INTEGER the cell is parsed as
a float then truncated (`int(float(value))`), parse failure becoming NULL;
for target REAL the cell is parsed as a float, parse failure becoming NULL;
for any other target the cell is stringified. -/
def sanitize (target_type : String) (value : Cell) : SqlVal :=
  if isna value then SqlVal.null
  else if target_type = "INTEGER" then
    match toNumeric value with
    | some q => SqlVal.int (ratTrunc q)
    | none => SqlVal.null
  else if target_type = "REAL" then
    match toNumeric value with
    | some q => SqlVal.real q
    | none => SqlVal.null
  else
    SqlVal.text (cellStr value)

/-- Embeds the inner loop of app.py lines 121-138: the i-th cell of the row
is coerced against the type of the i-th schema column, by position. -/
def coerceRow (db_column_types : List String) (row : List Cell) : List SqlVal :=
  (List.range row.length).map fun i =>
    sanitize (db_column_types.getD i "") (row.getD i Cell.missing)

/-- Dataset as re-read by the loader: a column count and the data rows
(each row positionally aligned with the columns). -/
structure Dataset where
  ncols : Nat
  rows : List (List Cell)

/-- Outcome of one `insert_data` request: the success redirect with the
inserted count, the column-count-mismatch flash (an input error), or the
exception path flash (a load error). -/
inductive LoadOutcome where
  | success (count : Nat)
  | inputError
  | loadError
deriving DecidableEq

/-- Observable result of one `insert_data` request: the outcome, the rows of
the target table visible as committed after the request, and whether the
storage connection was closed before returning. -/
structure InsertRun where
  outcome : LoadOutcome
  tableRows : List (List SqlVal)
  connClosed : Bool
deriving DecidableEq

/-- Embeds the insert loop of app.py lines 119-143 against SQLite's
transaction semantics: each `cursor.execute(INSERT ...)` appends the coerced
row to the uncommitted pending list and bumps the counter, unless the storage
engine raises on that insert (`failAt` gives the index of the insert the
engine fails on), in which case the loop aborts with the pending inserts
uncommitted. -/
def runInserts (failAt : Option Nat) (types : List String) :
    List (List Cell) → Nat → Nat → List (List SqlVal) →
    Option (Nat × List (List SqlVal))
  | [], _, inserted_count, pending => some (inserted_count, pending)
  | row :: rest, idx, inserted_count, pending =>
    if failAt = some idx then none
    else runInserts failAt types rest (idx + 1) (inserted_count + 1)
      (pending ++ [coerceRow types row])

/-- Embeds the `insert_data` request handler (app.py lines 94-154).
`schema` is the (name, type) list the handler reads back from
`PRAGMA table_info`; `init` is the committed content of the table before the
request; `failAt` injects a storage error on the given insert. On a column
count mismatch the handler flashes an input error and closes the connection
with nothing written (lines 114-117); otherwise it runs the insert loop,
then commits and closes (lines 145-148); if an insert raised, the except
path closes the connection without committing (lines 150-154), so the
pending inserts are rolled back and never become visible. -/
def insert_data (schema : List (String × String)) (init : List (List SqlVal))
    (ds : Dataset) (failAt : Option Nat) : InsertRun :=
  if ds.ncols ≠ schema.length then
    { outcome := LoadOutcome.inputError, tableRows := init, connClosed := true }
  else
    match runInserts failAt (schema.map Prod.snd) ds.rows 0 0 [] with
    | some (inserted_count, pending) =>
      { outcome := LoadOutcome.success inserted_count,
        tableRows := init ++ pending, connClosed := true }
    | none =>
      { outcome := LoadOutcome.loadError, tableRows := init, connClosed := true }

/-- Storage-connection events a request handler can perform, in order. -/
inductive DbEvent where
  | openConn
  | execDrop
  | execCreate
  | commit
  | closeConn
deriving DecidableEq

/-- Observable result of one `create_db` request: the ordered connection
events it performed and whether it reported an error to the user. -/
structure CreateRun where
  events : List DbEvent
  errorReported : Bool
deriving DecidableEq

/-- Embeds the `create_db` request handler's storage interaction
(app.py lines 81-92): open a connection, execute DROP TABLE IF EXISTS, then
CREATE TABLE, commit and close. `dropFails` / `createFails` inject a storage
error on the respective statement; on an error the except path (lines 90-92)
flashes a message and redirects without closing the connection. -/
def create_db (dropFails createFails : Bool) : CreateRun :=
  if dropFails then
    { events := [DbEvent.openConn, DbEvent.execDrop], errorReported := true }
  else if createFails then
    { events := [DbEvent.openConn, DbEvent.execDrop, DbEvent.execCreate],
      errorReported := true }
  else
    { events := [DbEvent.openConn, DbEvent.execDrop, DbEvent.execCreate,
        DbEvent.commit, DbEvent.closeConn],
      errorReported := false }

/-- Embeds Python `s.replace(old, new)` for one-character `old` and `new`. -/
def pyReplaceChar (s : String) (old new : Char) : String :=
  String.mk (s.data.map (fun c => if c = old then new else c))

/-- Embeds Python `s.replace(old, '')` for a one-character `old`: every
occurrence is deleted. -/
def pyDropChar (s : String) (old : Char) : String :=
  String.mk (s.data.filter (fun c => c != old))

/-- Embeds the column-name cleaning of app.py line 51:
`col.replace(' ', '_').replace('.', '').replace('(', '').replace(')', '').replace('/', '')`. -/
def cleanedName (col : String) : String :=
  pyDropChar (pyDropChar (pyDropChar (pyDropChar (pyReplaceChar col ' ' '_') '.') '(') ')') '/'

/-- Embeds the identifier quoting of app.py line 85: the code wraps the
column name in double quotes without escaping (`f-string` interpolation). -/
def quoteIdent (name : String) : String := "\"" ++ name ++ "\""

/-- Embeds one column definition of app.py line 85: quoted name, a space,
then the type string. -/
def colDefSql (col : String × String) : String := quoteIdent col.1 ++ " " ++ col.2

/-- Embeds `", ".join(...)` over the column definitions (app.py line 85). -/
def colsSql : List (String × String) → String
  | [] => ""
  | [col] => colDefSql col
  | col :: col2 :: cols => colDefSql col ++ ", " ++ colsSql (col2 :: cols)

/-- Models the SQLite lexer on a double-quoted identifier, after the opening
quote: an embedded `""` stands for one literal `"`, and a single `"` closes
the identifier; an unterminated identifier is a syntax error (`none`).
Returns the identifier and the characters after the closing quote. -/
def scanIdent : List Char → Option (String × List Char)
  | [] => none
  | c :: rest =>
    if c = '"' then
      match rest with
      | '"' :: rest2 =>
        match scanIdent rest2 with
        | some (name, r) => some (String.mk ('"' :: name.data), r)
        | none => none
      | _ => some ("", rest)
    else
      match scanIdent rest with
      | some (name, r) => some (String.mk (c :: name.data), r)
      | none => none

/-- Models the storage engine parsing one column definition of the CREATE
TABLE statement: a double-quoted identifier, one space, then the declared
type, which extends up to the next comma or the end of the list. -/
def parseColDef (cs : List Char) : Option ((String × String) × List Char) :=
  match cs with
  | [] => none
  | c :: rest =>
    if c = '"' then
      match scanIdent rest with
      | some (name, ' ' :: rest2) =>
        some ((name, String.mk (rest2.takeWhile (fun c => c != ','))),
          rest2.dropWhile (fun c => c != ','))
      | _ => none
    else none

/-- Models the storage engine parsing the comma-separated column definition
list of the CREATE TABLE statement, with fuel for termination. -/
def parseColDefsAux : Nat → List Char → Option (List (String × String))
  | 0, _ => none
  | _ + 1, [] => some []
  | fuel + 1, c :: cs =>
    match parseColDef (c :: cs) with
    | some (cd, []) => some [cd]
    | some (cd, ',' :: ' ' :: rest) =>
      match parseColDefsAux fuel rest with
      | some cds => some (cd :: cds)
      | none => none
    | _ => none

/-- Models create-then-introspect: the storage engine parses the column list
of the CREATE TABLE statement into its catalog, which `PRAGMA table_info`
then reports back; `none` models a SQL syntax error on CREATE. -/
def parseColDefs (s : String) : Option (List (String × String)) :=
  parseColDefsAux (s.data.length + 1) s.data

theorem not_isna_iff (c : Cell) : (!(isna c)) = true ↔ c ≠ Cell.missing := by
  cases c <;> simp [isna]

theorem runInserts_ok (failAt : Option Nat) (types : List String)
    (rows : List (List Cell)) (idx inserted_count : Nat)
    (pending : List (List SqlVal))
    (h : ∀ i, failAt = some i → i < idx ∨ idx + rows.length ≤ i) :
    runInserts failAt types rows idx inserted_count pending =
      some (inserted_count + rows.length, pending ++ rows.map (coerceRow types)) := by
  induction rows generalizing idx inserted_count pending with
  | nil => simp [runInserts]
  | cons r rs ih =>
    have hne : failAt ≠ some idx := by
      intro hfa
      rcases h idx hfa with h1 | h1
      · omega
      · simp only [List.length_cons] at h1
        omega
    rw [runInserts, if_neg hne]
    rw [ih (idx + 1) (inserted_count + 1) (pending ++ [coerceRow types r])
      (fun i hi => by rcases h i hi with h1 | h1
                      · left; omega
                      · right; simp only [List.length_cons] at h1 ⊢; omega)]
    have hcount : inserted_count + 1 + rs.length = inserted_count + (r :: rs).length := by
      simp only [List.length_cons]
      omega
    simp [hcount, List.append_assoc]

theorem runInserts_fail (j : Nat) (types : List String)
    (rows : List (List Cell)) (idx inserted_count : Nat)
    (pending : List (List SqlVal))
    (h1 : idx ≤ j) (h2 : j < idx + rows.length) :
    runInserts (some j) types rows idx inserted_count pending = none := by
  induction rows generalizing idx inserted_count pending with
  | nil => simp at h2; omega
  | cons r rs ih =>
    by_cases hidx : j = idx
    · subst hidx
      rw [runInserts, if_pos rfl]
    · rw [runInserts, if_neg (by simp [hidx])]
      exact ih (idx + 1) (inserted_count + 1) (pending ++ [coerceRow types r])
        (by omega) (by simp at h2 ⊢; omega)

/-- C2: for a dataset whose column count matches the schema, when no insert
raises a storage error, the loader issues one insert per row, reports a
success count equal to the number of rows (even for rows whose cells all
coerced to null), and no row is dropped: the table gains exactly the coerced
image of every row. -/
theorem C2_inserted_count_eq_rows (schema : List (String × String))
    (init : List (List SqlVal)) (ds : Dataset) (failAt : Option Nat)
    (hcols : ds.ncols = schema.length)
    (hok : ∀ i, failAt = some i → ds.rows.length ≤ i) :
    (insert_data schema init ds failAt).outcome =
      LoadOutcome.success ds.rows.length ∧
    (insert_data schema init ds failAt).tableRows =
      init ++ ds.rows.map (coerceRow (schema.map Prod.snd)) := by
  have h := runInserts_ok failAt (schema.map Prod.snd) ds.rows 0 0 []
    (fun i hi => Or.inr (by simpa using hok i hi))
  unfold insert_data
  rw [if_neg (by simp [hcols]), h]
  simp

theorem C2_witness :
    (insert_data [("a", "INTEGER"), ("b", "TEXT")] []
      ⟨2, [[Cell.str "zz", Cell.missing]]⟩ none).outcome =
      LoadOutcome.success 1 ∧
    (insert_data [("a", "INTEGER"), ("b", "TEXT")] []
      ⟨2, [[Cell.str "zz", Cell.missing]]⟩ none).tableRows =
      [] ++ [[Cell.str "zz", Cell.missing]].map (coerceRow ["INTEGER", "TEXT"]) := by
  have h := C2_inserted_count_eq_rows [("a", "INTEGER"), ("b", "TEXT")] []
    ⟨2, [[Cell.str "zz", Cell.missing]]⟩ none rfl
    (fun i hi => Option.noConfusion hi)
  exact h

/-- C3: on a column count mismatch between the dataset and the table schema,
the loader reports an input error, inserts zero rows, and writes nothing to
the table. -/
theorem C3_column_count_mismatch (schema : List (String × String))
    (init : List (List SqlVal)) (ds : Dataset) (failAt : Option Nat)
    (h : ds.ncols ≠ schema.length) :
    (insert_data schema init ds failAt).outcome = LoadOutcome.inputError ∧
    (insert_data schema init ds failAt).tableRows = init := by
  unfold insert_data
  rw [if_pos h]
  exact ⟨rfl, rfl⟩

theorem C3_witness :
    (insert_data [("a", "TEXT"), ("b", "TEXT")] [] ⟨1, [[Cell.num 1]]⟩
      none).outcome = LoadOutcome.inputError ∧
    (insert_data [("a", "TEXT"), ("b", "TEXT")] [] ⟨1, [[Cell.num 1]]⟩
      none).tableRows = [] :=
  C3_column_count_mismatch [("a", "TEXT"), ("b", "TEXT")] [] ⟨1, [[Cell.num 1]]⟩
    none (by decide)

/-- C4: when some insert in range raises a storage error, the whole load is
aborted as one transaction: the table keeps exactly its prior content (rows
inserted before the failing one are rolled back, not committed), the failure
is reported as a load error rather than a success count, and the connection
is closed. -/
theorem C4_storage_error_aborts (schema : List (String × String))
    (init : List (List SqlVal)) (ds : Dataset) (i : Nat)
    (hcols : ds.ncols = schema.length) (hi : i < ds.rows.length) :
    (insert_data schema init ds (some i)).outcome = LoadOutcome.loadError ∧
    (insert_data schema init ds (some i)).tableRows = init ∧
    (insert_data schema init ds (some i)).connClosed = true := by
  have h := runInserts_fail i (schema.map Prod.snd) ds.rows 0 0 []
    (Nat.zero_le i) (by omega)
  unfold insert_data
  rw [if_neg (by simp [hcols]), h]
  exact ⟨rfl, rfl, rfl⟩

theorem C4_witness :
    (insert_data [("a", "TEXT")] [[SqlVal.int 9]]
      ⟨1, [[Cell.num 1], [Cell.num 2]]⟩ (some 1)).outcome =
      LoadOutcome.loadError ∧
    (insert_data [("a", "TEXT")] [[SqlVal.int 9]]
      ⟨1, [[Cell.num 1], [Cell.num 2]]⟩ (some 1)).tableRows = [[SqlVal.int 9]] ∧
    (insert_data [("a", "TEXT")] [[SqlVal.int 9]]
      ⟨1, [[Cell.num 1], [Cell.num 2]]⟩ (some 1)).connClosed = true :=
  C4_storage_error_aborts [("a", "TEXT")] [[SqlVal.int 9]]
    ⟨1, [[Cell.num 1], [Cell.num 2]]⟩ 1 rfl (by decide)

/-- C10: a dataset with zero rows whose column count matches the schema loads
successfully with an inserted count of zero, no error reported, and the table
left as it was. -/
theorem C10_empty_dataset (schema : List (String × String))
    (init : List (List SqlVal)) (failAt : Option Nat) (n : Nat)
    (h : n = schema.length) :
    (insert_data schema init ⟨n, []⟩ failAt).outcome = LoadOutcome.success 0 ∧
    (insert_data schema init ⟨n, []⟩ failAt).tableRows = init := by
  unfold insert_data
  rw [if_neg (by simp [h])]
  simp [runInserts]

theorem C10_witness :
    (insert_data [("a", "TEXT")] [] ⟨1, []⟩ none).outcome =
      LoadOutcome.success 0 ∧
    (insert_data [("a", "TEXT")] [] ⟨1, []⟩ none).tableRows = [] :=
  C10_empty_dataset [("a", "TEXT")] [] none 1 rfl

/-- C9: the row-loading request closes its connection on every exit path,
but the schema-creation request does not: on a storage error during DROP or
CREATE, `create_db` reports the error yet returns without ever closing the
connection it opened, so the claim fails on the code as written. -/
theorem C9_connection_close :
    (∀ schema init ds failAt,
      (insert_data schema init ds failAt).connClosed = true) ∧
    (create_db false false).events.contains DbEvent.closeConn = true ∧
    (create_db false true).errorReported = true ∧
    (create_db false true).events.contains DbEvent.closeConn = false ∧
    (create_db true false).events.contains DbEvent.closeConn = false := by
  refine ⟨?_, by decide, by decide, by decide, by decide⟩
  intro schema init ds failAt
  unfold insert_data
  split
  · rfl
  · split <;> rfl

/-- C1: the coerced value of a cell depends only on the raw cell and the
positionally aligned target type: a missing cell maps to null for every
target type; for target INTEGER the cell is parsed as a float and truncated
to an integer, null on parse failure; for target REAL the cell is parsed as
a float, null on parse failure; for any other target the raw value is
stringified; and the i-th coerced value of a row is the coercion of the i-th
cell against the i-th schema type. -/
theorem C1_cell_coercion (t : String) (c : Cell) (types : List String)
    (row : List Cell) (i : Nat) (hit : i < types.length) (hi : i < row.length) :
    sanitize t Cell.missing = SqlVal.null ∧
    (t = "INTEGER" → sanitize t c =
      (match toNumeric c with
       | some q => SqlVal.int (ratTrunc q)
       | none => SqlVal.null)) ∧
    (t = "REAL" → sanitize t c =
      (match toNumeric c with
       | some q => SqlVal.real q
       | none => SqlVal.null)) ∧
    (t ≠ "INTEGER" → t ≠ "REAL" → c ≠ Cell.missing →
      sanitize t c = SqlVal.text (cellStr c)) ∧
    (coerceRow types row)[i]? = some (sanitize types[i] row[i]) := by
  refine ⟨rfl, ?_, ?_, ?_, ?_⟩
  · rintro rfl
    cases c <;> simp [sanitize, isna, toNumeric]
  · rintro rfl
    cases c <;> simp [sanitize, isna, toNumeric]
  · intro h1 h2 h3
    cases c
    · exact absurd rfl h3
    · simp [sanitize, isna, h1, h2, cellStr]
    · simp [sanitize, isna, h1, h2, cellStr]
  · unfold coerceRow
    rw [List.getElem?_map, List.getElem?_range hi]
    simp [List.getD_eq_getElem?_getD, List.getElem?_eq_getElem hi,
      List.getElem?_eq_getElem hit]

theorem C1_witness :
    (coerceRow ["INTEGER"] [Cell.str "1.9"])[0]? =
      some (sanitize "INTEGER" (Cell.str "1.9")) := by
  have h := C1_cell_coercion "INTEGER" (Cell.str "1.9") ["INTEGER"]
    [Cell.str "1.9"] 0 (by decide) (by decide)
  simpa using h.2.2.2.2

/-- C6: a column containing at least one non-missing value that fails numeric
parsing, and a column whose values are all missing, both infer to TEXT. -/
theorem C6_infer_text (col : List Cell)
    (h : (∃ c ∈ col, c ≠ Cell.missing ∧ toNumeric c = none) ∨
      ∀ c ∈ col, c = Cell.missing) :
    infer_data_type col = "TEXT" := by
  unfold infer_data_type
  rcases h with ⟨c, hc, hne, hnone⟩ | hall
  · have hfalse :
        ((col.filter (fun c => !(isna c))).map toNumeric).all Option.isSome = false := by
      rw [List.all_eq_false]
      exact ⟨toNumeric c,
        List.mem_map_of_mem _ (List.mem_filter.mpr ⟨hc, (not_isna_iff c).mpr hne⟩),
        by simp [hnone]⟩
    simp [hfalse]
  · have hnil : col.filter (fun c => !(isna c)) = [] := by
      rw [List.filter_eq_nil_iff]
      intro a ha
      simp [isna, hall a ha]
    simp [hnil]

theorem C6_witness : infer_data_type [Cell.str "abc", Cell.num 2] = "TEXT" :=
  C6_infer_text [Cell.str "abc", Cell.num 2]
    (Or.inl ⟨Cell.str "abc", by decide, by decide, by decide⟩)

/-- C5 as stated is false at an all-missing column: every non-missing value
vacuously parses as an integer-valued number, yet the analyzer infers TEXT,
not INTEGER. -/
theorem C5_counterexample :
    (∀ c ∈ [Cell.missing], c ≠ Cell.missing →
      ∃ q, toNumeric c = some q ∧ (ratTrunc q : Rat) = q) ∧
    infer_data_type [Cell.missing] ≠ "INTEGER" := by
  constructor
  · intro c hc hne
    simp only [List.mem_singleton] at hc
    exact absurd hc hne
  · decide

/-- C5 amended: for a column with at least one non-missing value in which
every non-missing value parses as a number, the analyzer infers INTEGER when
every parsed value equals its own truncation to integer, and REAL when some
parsed value has a fractional part. -/
theorem C5_amended_integer_real (col : List Cell)
    (hne : ∃ c ∈ col, c ≠ Cell.missing)
    (hnum : ∀ c ∈ col, c ≠ Cell.missing → (toNumeric c).isSome = true) :
    ((∀ c ∈ col, ∀ q, toNumeric c = some q → (ratTrunc q : Rat) = q) →
      infer_data_type col = "INTEGER") ∧
    ((∃ c ∈ col, ∃ q, toNumeric c = some q ∧ (ratTrunc q : Rat) ≠ q) →
      infer_data_type col = "REAL") := by
  obtain ⟨c0, hc0, hc0ne⟩ := hne
  have hmem0 : toNumeric c0 ∈ (col.filter (fun c => !(isna c))).map toNumeric :=
    List.mem_map_of_mem _ (List.mem_filter.mpr ⟨hc0, (not_isna_iff c0).mpr hc0ne⟩)
  have hnonempty :
      ((col.filter (fun c => !(isna c))).map toNumeric).isEmpty = false := by
    rw [List.isEmpty_eq_false]
    intro heq
    rw [heq] at hmem0
    exact absurd hmem0 (List.not_mem_nil _)
  have hall :
      ((col.filter (fun c => !(isna c))).map toNumeric).all Option.isSome = true := by
    rw [List.all_eq_true]
    intro o ho
    rw [List.mem_map] at ho
    obtain ⟨c, hcmem, rfl⟩ := ho
    have hf := List.mem_filter.mp hcmem
    exact hnum c hf.1 ((not_isna_iff c).mp hf.2)
  constructor
  · intro hint
    have hintall :
        ((col.filter (fun c => !(isna c))).map toNumeric).all
          (fun o => match o with | some q => isIntegral q | none => true) = true := by
      rw [List.all_eq_true]
      intro o ho
      rw [List.mem_map] at ho
      obtain ⟨c, hcmem, rfl⟩ := ho
      have hf := List.mem_filter.mp hcmem
      cases hq : toNumeric c with
      | none => simp
      | some q =>
        have := hint c hf.1 q hq
        simp [isIntegral, this]
    simp [infer_data_type, hnonempty, hall, hintall]
  · rintro ⟨c, hcmem, q, hq, hfrac⟩
    have hcne : c ≠ Cell.missing := by
      intro hh
      rw [hh] at hq
      exact Option.noConfusion hq
    have hfracall :
        ((col.filter (fun c => !(isna c))).map toNumeric).all
          (fun o => match o with | some q => isIntegral q | none => true) = false := by
      rw [List.all_eq_false]
      refine ⟨toNumeric c,
        List.mem_map_of_mem _ (List.mem_filter.mpr ⟨hcmem, (not_isna_iff c).mpr hcne⟩), ?_⟩
      rw [hq]
      simp [isIntegral, hfrac]
    simp [infer_data_type, hnonempty, hall, hfracall]

theorem C5_amended_witness :
    infer_data_type [Cell.num 1, Cell.num (Rat.divInt 3 2)] = "REAL" := by
  have h := C5_amended_integer_real [Cell.num 1, Cell.num (Rat.divInt 3 2)]
    ⟨Cell.num 1, by decide, by decide⟩ (by decide)
  exact h.2 ⟨Cell.num (Rat.divInt 3 2), by decide, Rat.divInt 3 2, rfl, by decide⟩

/-- C7: the cleaned column name replaces each space with an underscore and
deletes each period, parenthesis and slash, so it never contains a space,
period, opening or closing parenthesis, or slash, whatever the input name. -/
theorem C7_cleaned_name_chars (col : String) (c : Char)
    (hc : c ∈ (cleanedName col).data) :
    c ≠ ' ' ∧ c ≠ '.' ∧ c ≠ '(' ∧ c ≠ ')' ∧ c ≠ '/' := by
  simp only [cleanedName, pyDropChar, pyReplaceChar, List.mem_filter,
    List.mem_map, bne_iff_ne, ne_eq] at hc
  obtain ⟨⟨⟨⟨⟨a, ha, hmap⟩, h2⟩, h3⟩, h4⟩, h5⟩ := hc
  refine ⟨?_, h2, h3, h4, h5⟩
  by_cases hsp : a = ' '
  · rw [if_pos hsp] at hmap
    rw [← hmap]
    decide
  · rw [if_neg hsp] at hmap
    rw [← hmap]
    exact hsp

theorem C7_witness :
    'a' ≠ ' ' ∧ 'a' ≠ '.' ∧ 'a' ≠ '(' ∧ 'a' ≠ ')' ∧ 'a' ≠ '/' :=
  C7_cleaned_name_chars "a.b c(d)/e" 'a' (by decide)

theorem takeWhile_all_append {α : Type} (p : α → Bool) (l r : List α)
    (h : ∀ a ∈ l, p a = true) :
    (l ++ r).takeWhile p = l ++ r.takeWhile p := by
  induction l with
  | nil => simp
  | cons x xs ih =>
    simp only [List.cons_append, List.takeWhile_cons]
    rw [h x (List.mem_cons_self x xs)]
    simp [ih (fun a ha => h a (List.mem_cons_of_mem x ha))]

theorem dropWhile_all_append {α : Type} (p : α → Bool) (l r : List α)
    (h : ∀ a ∈ l, p a = true) :
    (l ++ r).dropWhile p = r.dropWhile p := by
  induction l with
  | nil => simp
  | cons x xs ih =>
    simp only [List.cons_append, List.dropWhile_cons]
    rw [h x (List.mem_cons_self x xs)]
    simp [ih (fun a ha => h a (List.mem_cons_of_mem x ha))]

theorem scanIdent_no_quote (l rest : List Char) (h : '"' ∉ l) :
    scanIdent (l ++ '"' :: ' ' :: rest) = some (String.mk l, ' ' :: rest) := by
  induction l with
  | nil => simp [scanIdent]
  | cons c cs ih =>
    have hc : c ≠ '"' := by
      intro hh
      exact h (hh ▸ List.mem_cons_self c cs)
    have ih' := ih (fun hm => h (List.mem_cons_of_mem c hm))
    cases cs with
    | nil =>
      rw [List.nil_append] at ih'
      rw [List.cons_append, List.nil_append, scanIdent.eq_2, if_neg hc, ih']
    | cons c2 cs2 =>
      have hc2 : c2 ≠ '"' := by
        intro hh
        exact h (hh ▸ List.mem_cons_of_mem c (List.mem_cons_self c2 cs2))
      have hne : ∀ rest2 : List Char,
          (c2 :: cs2) ++ '"' :: ' ' :: rest = '"' :: rest2 → False := by
        intro rest2 heq
        rw [List.cons_append] at heq
        injection heq with h1 h2
        exact hc2 h1
      rw [List.cons_append, scanIdent.eq_3 c _ hne, if_neg hc, ih']

theorem parseColDef_spec (name ty : String) (rest : List Char)
    (hn : '"' ∉ name.data) (ht : ',' ∉ ty.data) :
    parseColDef ('"' :: (name.data ++ '"' :: ' ' :: (ty.data ++ rest))) =
      some ((name, String.mk (ty.data ++ rest.takeWhile (fun c => c != ','))),
        rest.dropWhile (fun c => c != ',')) := by
  have hall : ∀ c ∈ ty.data, (c != ',') = true := by
    intro c hcm
    rw [bne_iff_ne]
    intro hh
    exact ht (hh ▸ hcm)
  rw [parseColDef, if_pos rfl, scanIdent_no_quote name.data (ty.data ++ rest) hn]
  simp only [takeWhile_all_append _ ty.data rest hall,
    dropWhile_all_append _ ty.data rest hall]

theorem colsSql_data_single (name ty : String) :
    (colsSql [(name, ty)]).data = '"' :: (name.data ++ '"' :: ' ' :: ty.data) := by
  simp [colsSql, colDefSql, quoteIdent, String.data_append]

theorem colsSql_data_cons (name ty : String) (col2 : String × String)
    (cols : List (String × String)) :
    (colsSql ((name, ty) :: col2 :: cols)).data =
      '"' :: (name.data ++ '"' :: ' ' ::
        (ty.data ++ ',' :: ' ' :: (colsSql (col2 :: cols)).data)) := by
  simp [colsSql, colDefSql, quoteIdent, String.data_append]

theorem colsSql_length_ge (columns : List (String × String)) :
    columns.length ≤ (colsSql columns).data.length := by
  induction columns with
  | nil => simp [colsSql]
  | cons col cols ih =>
    obtain ⟨name, ty⟩ := col
    cases cols with
    | nil => simp [colsSql_data_single]
    | cons col2 cols2 =>
      rw [colsSql_data_cons]
      simp only [List.length_cons, List.length_append] at ih ⊢
      omega

theorem parseColDefsAux_spec (columns : List (String × String)) (fuel : Nat)
    (hgood : ∀ p ∈ columns, '"' ∉ p.1.data ∧ ',' ∉ p.2.data)
    (hfuel : columns.length < fuel) :
    parseColDefsAux fuel (colsSql columns).data = some columns := by
  induction columns generalizing fuel with
  | nil =>
    cases fuel with
    | zero => omega
    | succ f => simp [colsSql, parseColDefsAux]
  | cons col cols ih =>
    cases fuel with
    | zero => omega
    | succ f =>
      obtain ⟨name, ty⟩ := col
      have hg := hgood (name, ty) (List.mem_cons_self _ _)
      cases cols with
      | nil =>
        rw [colsSql_data_single, parseColDefsAux]
        have h := parseColDef_spec name ty [] hg.1 hg.2
        simp only [List.append_nil, List.takeWhile_nil, List.dropWhile_nil] at h
        rw [h]
      | cons col2 cols2 =>
        rw [colsSql_data_cons, parseColDefsAux]
        have h := parseColDef_spec name ty (',' :: ' ' :: (colsSql (col2 :: cols2)).data)
          hg.1 hg.2
        simp only [List.takeWhile_cons, List.dropWhile_cons] at h
        norm_num at h
        rw [h]
        have ih' := ih f (fun p hp => hgood p (List.mem_cons_of_mem _ hp)) (by
          simp only [List.length_cons] at hfuel ⊢
          omega)
        simp only [ih']

/-- C8 fails as stated: the code quotes identifiers without escaping embedded
double quotes, so a column name containing the unusual character `"` produces
a malformed CREATE statement and the create-then-introspect round trip fails
instead of returning the name unchanged. -/
theorem C8_counterexample :
    parseColDefs (colsSql [(String.mk ['a', '"', 'b'], "TEXT")]) ≠
      some [(String.mk ['a', '"', 'b'], "TEXT")] := by
  decide

/-- C8 amended: for every column list whose names contain no double-quote
character and whose types contain no comma, creating the table with the
code's quoted identifiers and then reading the catalog back returns the
(name, type) pairs exactly as given, reserved words and other unusual
characters included. -/
theorem C8_amended_roundtrip (columns : List (String × String))
    (hgood : ∀ p ∈ columns, '"' ∉ p.1.data ∧ ',' ∉ p.2.data) :
    parseColDefs (colsSql columns) = some columns := by
  unfold parseColDefs
  exact parseColDefsAux_spec columns _ hgood
    (Nat.lt_succ_of_le (colsSql_length_ge columns))

theorem C8_amended_witness :
    parseColDefs (colsSql [("Start_Date", "TEXT"), ("select", "INTEGER")]) =
      some [("Start_Date", "TEXT"), ("select", "INTEGER")] :=
  C8_amended_roundtrip [("Start_Date", "TEXT"), ("select", "INTEGER")] (by decide)
